import Mathlib

/-!
Verification of webvfx's EffectsImpl (src/webvfx/effects_impl.cpp): the
synchronous cross-thread invocation bridge.  Pure control flow is embedded
directly; Qt primitives (QUrl parsing, QFileInfo canonicalization, the owner
thread's event queue) are external collaborators and are modelled either
parametrically (QtModel) or from the spec's description of their contract.
-/

namespace WebVfx

/-- The two content-handler variants: WebContent (DocumentContent) and
QmlContent (DeclarativeContent). -/
inductive Variant
  | web
  | qml
deriving DecidableEq, Repr

/-- Lower-cased character list of a string, for QString::endsWith with
Qt::CaseInsensitive (effects_impl.cpp lines 174, 187). -/
def lowerStr (s : String) : List Char :=
  s.data.map Char.toLower

/-- path.endsWith(sfx, Qt::CaseInsensitive). -/
def endsWithCI (path : String) (sfx : String) : Bool :=
  (lowerStr sfx).isSuffixOf (lowerStr path)

/-- A resolved URL, as far as EffectsImpl inspects one: scheme, path,
QUrl::isLocalFile and QUrl::isValid. -/
structure Url where
  scheme : String
  path : String
  isLocalFile : Bool
  valid : Bool
deriving DecidableEq, Repr

/-- Parametric model of the Qt URL / filesystem primitives used by
EffectsImpl::initialize (lines 44-58).  The logic of the bridge is embedded
for an arbitrary QtModel; concrete instances witness the theorems. -/
structure QtModel where
  parseUrl : String → Url
  toStringRemoveScheme : String → String
  urlToString : Url → String
  absoluteFilePath : String → String
  fromLocalFile : String → Url
  fromLocalFile_isLocal : ∀ s, (fromLocalFile s).isLocalFile = true

/-- Failure modes of locator resolution (spec taxonomy; the code reports both
as a logged message plus return false). -/
inductive InitError
  | invalidLocator
deriving DecidableEq, Repr

/-- Lines 50-58 of initialize: if the scheme is absent or a drive-letter-like
token (length < 2), resolve to an absolute local-file URL and fail when the
result is invalid; otherwise keep the URL. -/
def resolveScheme (Q : QtModel) (url : Url) (isPlain : Bool) :
    Except InitError (Url × Bool) :=
  if url.scheme.length < 2 then
    let url2 := Q.fromLocalFile (Q.absoluteFilePath (Q.urlToString url))
    if !url2.valid then .error .invalidLocator
    else .ok (url2, isPlain)
  else .ok (url, isPlain)

/-- Lines 44-58 of initialize: parse the raw file name; the reserved "plain"
pseudo-scheme is stripped and recorded, then the scheme-length check runs on
the re-parsed remainder. -/
def resolveLocator (Q : QtModel) (fileName : String) :
    Except InitError (Url × Bool) :=
  let url := Q.parseUrl fileName
  if url.scheme == "plain" then
    resolveScheme Q (Q.parseUrl (Q.toStringRemoveScheme fileName)) true
  else
    resolveScheme Q url false

/-- Bridge instance state (the fields of EffectsImpl, lines 22-30):
the content handle pointer (none = null), whether the instance mutex /
waitCondition field pair currently points at a live CallRecord (both are set
and cleared together), and the two result slots. -/
structure EffectsState where
  content : Option Variant
  mutexLive : Bool
  initializeResult : Bool
  renderResult : Bool
deriving DecidableEq, Repr

/-- The constructor: content null, mutex/waitCondition null, both results
false (lines 22-30). -/
def initState : EffectsState :=
  { content := none, mutexLive := false,
    initializeResult := false, renderResult := false }

/-- Which load-completion signal of the content handle is connected to
initializeComplete (lines 180-185, 190-195). -/
inductive LoadEvent
  | preLoadFinished
  | loadFinished
deriving DecidableEq, Repr

/-- Owner-thread actions performed by initializeInvokable, in order. -/
inductive OwnerAction
  | newContent (v : Variant)
  | setTransparent
  | connectSig (e : LoadEvent)
  | loadContent
  | logErr
deriving DecidableEq, Repr

/-- EffectsImpl::initializeInvokable (lines 169-203): select the content
variant from the path suffix and locality, construct it, wire the completion
signal chosen by isPlain, then start the load.  The unsupported-suffix branch
logs and returns without constructing, connecting or loading anything. -/
def initializeInvokable (st : EffectsState) (url : Url)
    (isPlain : Bool) (isTransparent : Bool) :
    EffectsState × List OwnerAction :=
  if endsWithCI url.path ".html" || endsWithCI url.path ".htm" || !url.isLocalFile then
    ({ st with content := some .web },
      [.newContent .web]
        ++ (if isTransparent then [.setTransparent] else [])
        ++ [.connectSig (if isPlain then .preLoadFinished else .loadFinished),
            .loadContent])
  else if endsWithCI url.path ".qml" then
    ({ st with content := some .qml },
      [.newContent .qml,
       .connectSig (if isPlain then .preLoadFinished else .loadFinished),
       .loadContent])
  else
    (st, [.logErr])

/-- EffectsImpl::renderComplete (lines 139-146): only when the instance
mutex and waitCondition fields are non-null does it store the result and wake
the waiter; returns the new state and whether a wake was signalled. -/
def renderComplete (st : EffectsState) (result : Bool) : EffectsState × Bool :=
  if st.mutexLive then ({ st with renderResult := result }, true)
  else (st, false)

/-- Null-pointer dereference outcome of running an invokable against a
missing content handle. -/
inductive Crash
  | nullDeref
deriving DecidableEq, Repr

/-- EffectsImpl::renderInvokable (lines 205-209): content->setContentSize then
renderComplete(content->renderContent(time, renderImage)).  With a null
content pointer the very first call dereferences null.  The boolean r stands
for the value the handle's renderContent produces for this call. -/
def renderInvokable (st : EffectsState) (r : Bool) :
    Except Crash (EffectsState × Bool) :=
  match st.content with
  | none => .error .nullDeref
  | some _ => .ok (renderComplete st r)

/-- EffectsImpl::reloadInvokable (lines 211-214): content->reload(); the
handle-internal engine state is outside this model. -/
def reloadInvokable (st : EffectsState) : Except Crash EffectsState :=
  match st.content with
  | none => .error .nullDeref
  | some _ => .ok st

/-- How a blocking bridge call ends for its caller: a boolean return, a void
return (reload), an indefinite block on the CallRecord's wait (nothing ever
signals it), or a crash (null dereference on one of the threads). -/
inductive CallOutcome
  | returns (b : Bool)
  | unitDone
  | hangs
  | crashes
deriving DecidableEq, Repr

/-- Caller-thread actions of a bridge call, in order.  createRecord covers
constructing the stack CallRecord (QMutex + QWaitCondition) and storing its
address into the instance fields. -/
inductive CallerAction
  | logWrongThread
  | logInvalidUrl
  | resolveAct
  | createRecord
  | moveToOwner
  | postInvokable
  | waitCond
deriving DecidableEq, Repr

/-- EffectsImpl::initialize (lines 37-83) together with initializeComplete
(lines 85-90), for a sequential execution (no concurrent bridge call).
onUI is QThread::currentThread() == QApplication::instance()->thread();
loadResult is the boolean the content handle's wired load signal eventually
fires with.  When initializeInvokable constructs no handle (unsupported
suffix) nothing ever calls initializeComplete, so the caller blocks forever
on waitCondition.wait (line 78 has no timeout). -/
def initializeCall (Q : QtModel) (st : EffectsState) (onUI : Bool)
    (fileName : String) (isTransparent : Bool) (loadResult : Bool) :
    EffectsState × CallOutcome × List CallerAction :=
  if onUI then
    (st, .returns false, [.logWrongThread])
  else
    match resolveLocator Q fileName with
    | .error _ => (st, .returns false, [.resolveAct, .logInvalidUrl])
    | .ok (url, isPlain) =>
      let st1 := { st with mutexLive := true }
      let p := initializeInvokable st1 url isPlain isTransparent
      let trace := [CallerAction.resolveAct, .createRecord, .moveToOwner,
                    .postInvokable, .waitCond]
      if p.1.content.isSome then
        ({ p.1 with initializeResult := loadResult, mutexLive := false },
          .returns loadResult, trace)
      else
        (p.1, .hangs, trace)

/-- EffectsImpl::render (lines 114-137), sequential execution.  On the owner
thread it runs renderInvokable in place and returns renderResult; otherwise
it stores the stack CallRecord into the instance fields, posts
renderInvokable, waits, then clears the fields and returns renderResult.
A null content handle crashes the thread that runs the invokable. -/
def renderCall (st : EffectsState) (onUI : Bool) (r : Bool) :
    EffectsState × CallOutcome × List CallerAction :=
  if onUI then
    match renderInvokable st r with
    | .error _ => (st, .crashes, [])
    | .ok (st2, _) => (st2, .returns st2.renderResult, [])
  else
    let st1 := { st with mutexLive := true }
    match renderInvokable st1 r with
    | .error _ => (st1, .crashes, [.createRecord, .postInvokable, .waitCond])
    | .ok (st2, _) =>
      ({ st2 with mutexLive := false }, .returns st2.renderResult,
        [.createRecord, .postInvokable, .waitCond])

/-- EffectsImpl::reload (lines 148-167), sequential execution; reload returns
void, so a completed call is unitDone. -/
def reloadCall (st : EffectsState) (onUI : Bool) :
    EffectsState × CallOutcome × List CallerAction :=
  if onUI then
    match reloadInvokable st with
    | .error _ => (st, .crashes, [])
    | .ok st2 => (st2, .unitDone, [])
  else
    let st1 := { st with mutexLive := true }
    match reloadInvokable st1 with
    | .error _ => (st1, .crashes, [.createRecord, .postInvokable, .waitCond])
    | .ok st2 =>
      ({ st2 with mutexLive := false }, .unitDone,
        [.createRecord, .postInvokable, .waitCond])

/-- A concrete QtModel adequate for plain local paths and the "plain:" prefix,
used to evaluate the bridge on concrete inputs. -/
def sampleQt : QtModel where
  parseUrl s :=
    if s.data.take 6 = ("plain:").data then
      { scheme := "plain", path := String.mk (s.data.drop 6),
        isLocalFile := false, valid := true }
    else
      { scheme := "", path := s, isLocalFile := false, valid := true }
  toStringRemoveScheme s := String.mk (s.data.drop 6)
  urlToString u := u.path
  absoluteFilePath s := s
  fromLocalFile s :=
    { scheme := "file", path := s, isLocalFile := true, valid := s != "" }
  fromLocalFile_isLocal _ := rfl

/-!
Interleaved execution of two caller threads on render's marshaled path
(lines 120-134) against the owner thread (lines 205-209, 139-146).  Each
statement group of the source is one atomic step; the instance fields
this->mutex / this->waitCondition are the single shared slot the code reuses
across calls.  Caller identity: false = caller A, true = caller B.
-/

/-- Where a caller thread is inside render's marshaled path:
idle (not yet entered), fieldsSet (lines 120-123 done: stack CallRecord built
and its address stored into the instance fields), posted (line 126 done:
renderInvokable queued), waiting (line 131: blocked on its own
waitCondition), done (woken; lines 133-134 done: instance fields nulled,
renderResult returned). -/
inductive CallerPC
  | idle
  | fieldsSet
  | posted
  | waiting
  | done
deriving DecidableEq, Repr

/-- Global state of the two-caller interleaving: which caller's stack
CallRecord the instance fields currently point at (none = null), each
caller's program counter, the owner thread's queue of posted renderInvokable
events (tagged by the posting caller), and whether each caller's own
waitCondition has been signalled. -/
structure ConcState where
  fields : Option Bool
  pcA : CallerPC
  pcB : CallerPC
  queue : List Bool
  wokenA : Bool
  wokenB : Bool
deriving DecidableEq, Repr

/-- Program counter of caller i. -/
def pcOf (s : ConcState) (i : Bool) : CallerPC :=
  if i then s.pcB else s.pcA

/-- Set the program counter of caller i. -/
def setPc (s : ConcState) (i : Bool) (p : CallerPC) : ConcState :=
  if i then { s with pcB := p } else { s with pcA := p }

/-- Whether caller i's waitCondition has been signalled. -/
def wokenOf (s : ConcState) (i : Bool) : Bool :=
  if i then s.wokenB else s.wokenA

/-- Signal caller i's waitCondition (waitCondition->wakeAll, line 144). -/
def setWoken (s : ConcState) (i : Bool) : ConcState :=
  if i then { s with wokenB := true } else { s with wokenA := true }

/-- One step of caller thread i in render's marshaled path.  Nothing guards
the write to the instance fields: lines 122-123 execute before the caller's
own stack mutex means anything to the other caller, so a second caller
overwrites them freely. -/
def stepCaller (s : ConcState) (i : Bool) : Option ConcState :=
  match pcOf s i with
  | .idle => some (setPc { s with fields := some i } i .fieldsSet)
  | .fieldsSet => some (setPc { s with queue := s.queue ++ [i] } i .posted)
  | .posted => some (setPc s i .waiting)
  | .waiting =>
    if wokenOf s i then some (setPc { s with fields := none } i .done)
    else none
  | .done => none

/-- One step of the owner thread: dequeue one posted renderInvokable and run
it; its renderComplete signals whichever waitCondition the instance fields
point at right now (lines 141-144), or nothing when they are null. -/
def stepOwner (s : ConcState) : Option ConcState :=
  match s.queue with
  | [] => none
  | _ :: rest =>
    match s.fields with
    | some j => some (setWoken { s with queue := rest } j)
    | none => some { s with queue := rest }

/-- A scheduler tick: which thread runs next. -/
inductive ThreadTick
  | tickA
  | tickB
  | ownerTick
deriving DecidableEq, Repr

/-- Execute one scheduled tick; none when that thread has no enabled step. -/
def execTick (s : ConcState) : ThreadTick → Option ConcState
  | .tickA => stepCaller s false
  | .tickB => stepCaller s true
  | .ownerTick => stepOwner s

/-- Run a schedule from a state; none as soon as a tick is not enabled. -/
def runTicks (s : ConcState) : List ThreadTick → Option ConcState
  | [] => some s
  | t :: rest =>
    match execTick s t with
    | none => none
    | some s2 => runTicks s2 rest

/-- Initial interleaving state: fields null, both callers about to call
render from non-owner threads, empty owner queue. -/
def concInit : ConcState :=
  { fields := none, pcA := .idle, pcB := .idle,
    queue := [], wokenA := false, wokenB := false }

/-!
Deferred teardown (C9).  EffectsImpl::destroy (lines 92-95) only calls
deleteLater.  Modelled from the spec: the owner thread runs a cooperative
event loop that processes posted events one at a time in FIFO order; a
deferred-delete event runs the destructor (disposing the content handle,
lines 32-35), and events addressed to an already-disposed object are dropped,
never executed (spec sections 4.5 and 8).
-/

/-- Events in the owner thread's queue that concern one bridge instance:
a posted bridge call (renderInvokable and the like) or the deferred delete
posted by destroy. -/
inductive Ev
  | callEv
  | deferredDelete
deriving DecidableEq, Repr

/-- The owner-thread loop state for one bridge instance: its pending event
queue and whether the instance has been disposed. -/
structure LoopState where
  queue : List Ev
  disposed : Bool
deriving DecidableEq, Repr

/-- EffectsImpl::destroy (lines 92-95): deleteLater posts a deferred-delete
event to the owner thread's queue; nothing is disposed on the calling
thread. -/
def destroyOp (s : LoopState) : LoopState :=
  { s with queue := s.queue ++ [.deferredDelete] }

/-- Modelled from the spec: drain the owner thread's queue in FIFO order.
Returns the events actually executed, each paired with the disposed flag at
the moment it ran, plus the final disposed flag.  An event reached while the
instance is disposed is dropped; executing deferredDelete disposes. -/
def runLoop : List Ev → Bool → List (Ev × Bool) × Bool
  | [], d => ([], d)
  | e :: rest, d =>
    if d then runLoop rest d
    else
      match e with
      | .callEv =>
        let p := runLoop rest d
        ((.callEv, d) :: p.1, p.2)
      | .deferredDelete =>
        let p := runLoop rest true
        ((.deferredDelete, d) :: p.1, p.2)

/-- A render call in a sequential history: marshaled from a non-owner thread
or taken on the owner-thread fast path; r is the renderContent value the
handle produces for that call. -/
inductive RenderOp
  | marshaled (r : Bool)
  | fastPath (r : Bool)
deriving DecidableEq, Repr

/-- State transition of one render call in a sequential history. -/
def renderStep (st : EffectsState) : RenderOp → EffectsState
  | .marshaled r => (renderCall st false r).1
  | .fastPath r => (renderCall st true r).1

/-- The renderContent value of the most recent marshaled render in a history,
or the default d when the history has none. -/
def lastMarshaledFrom (d : Bool) (ops : List RenderOp) : Bool :=
  ops.foldl
    (fun acc op =>
      match op with
      | .marshaled r => r
      | .fastPath _ => acc) d

/-- Whether a connect of the given load signal occurs in an owner-thread
action trace strictly before any loadContent. -/
def wiredBeforeLoad (e : LoadEvent) : List OwnerAction → Bool
  | [] => false
  | .loadContent :: _ => false
  | .connectSig e2 :: rest => if e2 == e then true else wiredBeforeLoad e rest
  | _ :: rest => wiredBeforeLoad e rest

/-- Claim C7: initialize called from the owner thread fails immediately
(returns false, the WrongThread failure of the spec taxonomy) and performs no
work: it only logs — no locator resolution, no variant selection, no
CallRecord construction, no posting to the owner thread. -/
theorem wrong_thread_rejected (Q : QtModel) (st : EffectsState)
    (fileName : String) (t lr : Bool) :
    initializeCall Q st true fileName t lr
      = (st, CallOutcome.returns false, [CallerAction.logWrongThread]) := rfl

/-- Claim C1 fails on the code: with two concurrent callers A and B invoking
render on one instance there is a reachable interleaving in which B begins
marshaling (overwriting the instance mutex/waitCondition fields with its own
CallRecord) while A's CallRecord is still incomplete and A is blocked; the
run then reaches a stuck state in which A waits forever — its queued
invokable was completed against B's record and B's invokable completes
against null fields — so A never receives a result.  The three final
conjuncts show no thread has an enabled step in that state. -/
theorem render_call_admission_race :
    runTicks concInit [.tickA, .tickA, .tickA, .tickB]
      = some { fields := some true, pcA := .waiting, pcB := .fieldsSet,
               queue := [false], wokenA := false, wokenB := false } ∧
    runTicks concInit
        [.tickA, .tickA, .tickA, .tickB, .tickB, .tickB,
         .ownerTick, .tickB, .ownerTick]
      = some { fields := none, pcA := .waiting, pcB := .done,
               queue := [], wokenA := false, wokenB := true } ∧
    execTick { fields := none, pcA := .waiting, pcB := .done,
               queue := [], wokenA := false, wokenB := true } .tickA = none ∧
    execTick { fields := none, pcA := .waiting, pcB := .done,
               queue := [], wokenA := false, wokenB := true } .tickB = none ∧
    execTick { fields := none, pcA := .waiting, pcB := .done,
               queue := [], wokenA := false, wokenB := true } .ownerTick
      = none := by
  decide

/-- Claim C4 fails on the code at a concrete input: initialize of a local
file with an unsupported suffix constructs no content handle (the bridge
stays Idle), but the failure is never delivered — initializeInvokable
returns without signalling the CallRecord, so the blocked caller hangs
instead of receiving the failure as the result of the blocking call. -/
theorem unsupported_suffix_hangs_caller :
    (initializeCall sampleQt initState false "/effect.txt" false true).2.1
      = CallOutcome.hangs ∧
    (initializeCall sampleQt initState false "/effect.txt" false true).1.content
      = none ∧
    (∀ b : Bool, CallOutcome.hangs ≠ CallOutcome.returns b) := by
  refine ⟨by decide, by decide, by decide⟩

/-- Claim C2 fails on the code at a concrete input: on the owner-thread fast
path renderComplete finds the instance mutex/waitCondition null and drops
this call's renderContent value, so render returns the stale stored
renderResult (false) while the same call marshaled from a non-owner thread
returns the renderContent value (true). -/
theorem fast_path_result_differs :
    (renderCall
        { content := some .web, mutexLive := false,
          initializeResult := true, renderResult := false } true true).2.1
      = CallOutcome.returns false ∧
    (renderCall
        { content := some .web, mutexLive := false,
          initializeResult := true, renderResult := false } false true).2.1
      = CallOutcome.returns true ∧
    CallOutcome.returns false ≠ CallOutcome.returns true := by
  decide

/-- Claim C2, amended: render and reload on the owner thread execute
synchronously in place — no CallRecord, no post, no wait, state unchanged —
but render returns the stored renderResult of the bridge, not this call's
renderContent value; a marshaled render from a non-owner thread returns the
renderContent value, so the fast path does not in general agree with it. -/
theorem owner_thread_fast_path_behavior (st : EffectsState) (v : Variant)
    (r : Bool) (hc : st.content = some v) (hm : st.mutexLive = false) :
    renderCall st true r = (st, CallOutcome.returns st.renderResult, []) ∧
    reloadCall st true = (st, CallOutcome.unitDone, []) ∧
    (renderCall st false r).2.1 = CallOutcome.returns r := by
  refine ⟨?_, ?_, ?_⟩ <;>
    simp [renderCall, reloadCall, renderInvokable, reloadInvokable,
      renderComplete, hc, hm]

/-- Witness for owner_thread_fast_path_behavior at a concrete state. -/
theorem owner_thread_fast_path_behavior_inst :
    renderCall
        { content := some Variant.web, mutexLive := false,
          initializeResult := true, renderResult := false } true false
      = ({ content := some Variant.web, mutexLive := false,
           initializeResult := true, renderResult := false },
         CallOutcome.returns false, []) ∧
    reloadCall
        { content := some Variant.web, mutexLive := false,
          initializeResult := true, renderResult := false } true
      = ({ content := some Variant.web, mutexLive := false,
           initializeResult := true, renderResult := false },
         CallOutcome.unitDone, []) ∧
    (renderCall
        { content := some Variant.web, mutexLive := false,
          initializeResult := true, renderResult := false } false false).2.1
      = CallOutcome.returns false :=
  owner_thread_fast_path_behavior _ Variant.web false rfl rfl

/-- Claim C8 fails on the code at a concrete input: render on a bridge whose
initialize never completed successfully (null content handle) does not
report an error to the caller as the result of the call — the invokable
dereferences the null handle and crashes. -/
theorem uninitialized_render_not_reported :
    (renderCall initState false true).2.1 = CallOutcome.crashes ∧
    (∀ b : Bool, CallOutcome.crashes ≠ CallOutcome.returns b) := by
  refine ⟨rfl, ?_⟩
  decide

/-- Claim C8, amended: calling render on a bridge with no content handle
dereferences the null handle on whichever thread runs the invokable — it
neither silently no-ops nor proceeds, but the failure is a crash, not an
error result delivered to the caller. -/
theorem uninitialized_render_crashes (st : EffectsState) (onUI r : Bool)
    (h : st.content = none) :
    (renderCall st onUI r).2.1 = CallOutcome.crashes := by
  cases onUI <;> simp [renderCall, renderInvokable, h]

/-- Witness for uninitialized_render_crashes on the freshly constructed
bridge. -/
theorem uninitialized_render_crashes_inst :
    (renderCall initState true true).2.1 = CallOutcome.crashes :=
  uninitialized_render_crashes initState true true rfl

/-- A path that ends in ".qml" (case-insensitively) ends in neither ".html"
nor ".htm": the suffixes are pairwise incompatible. -/
theorem qml_suffix_excludes_web (s : String) (h : endsWithCI s ".qml" = true) :
    endsWithCI s ".html" = false ∧ endsWithCI s ".htm" = false := by
  have h4 : lowerStr ".qml" <:+ lowerStr s := by
    unfold endsWithCI at h
    exact List.isSuffixOf_iff_suffix.mp h
  constructor
  · cases hc : endsWithCI s ".html" with
    | false => rfl
    | true =>
      have h5 : lowerStr ".html" <:+ lowerStr s := by
        unfold endsWithCI at hc
        exact List.isSuffixOf_iff_suffix.mp hc
      rcases List.suffix_or_suffix_of_suffix h4 h5 with h6 | h6
      · exact absurd (List.isSuffixOf_iff_suffix.mpr h6) (by decide)
      · exact absurd (List.isSuffixOf_iff_suffix.mpr h6) (by decide)
  · cases hc : endsWithCI s ".htm" with
    | false => rfl
    | true =>
      have h5 : lowerStr ".htm" <:+ lowerStr s := by
        unfold endsWithCI at hc
        exact List.isSuffixOf_iff_suffix.mp hc
      rcases List.suffix_or_suffix_of_suffix h4 h5 with h6 | h6
      · exact absurd (List.isSuffixOf_iff_suffix.mpr h6) (by decide)
      · exact absurd (List.isSuffixOf_iff_suffix.mpr h6) (by decide)

/-- Claim C3: whenever initializeInvokable starts a load, the completion
signal chosen by plain mode — contentPreLoadFinished when isPlain,
contentLoadFinished otherwise — is connected to initializeComplete strictly
before loadContent runs, in both content-variant branches. -/
theorem completion_event_wired_before_load (st : EffectsState) (url : Url)
    (p t : Bool)
    (h : ((initializeInvokable st url p t).2).contains OwnerAction.loadContent
      = true) :
    wiredBeforeLoad
        (if p then LoadEvent.preLoadFinished else LoadEvent.loadFinished)
        ((initializeInvokable st url p t).2) = true := by
  by_cases h1 : (endsWithCI url.path ".html" || endsWithCI url.path ".htm"
      || !url.isLocalFile) = true
  · simp only [initializeInvokable, h1, if_true]
    cases p <;> cases t <;> rfl
  · by_cases h2 : endsWithCI url.path ".qml" = true
    · simp only [initializeInvokable, h1, h2, if_false, if_true]
      cases p <;> rfl
    · simp [initializeInvokable, h1, h2] at h

/-- Witness for completion_event_wired_before_load: a plain-mode local .qml
initialize wires contentPreLoadFinished before loading. -/
theorem completion_event_wired_before_load_inst :
    wiredBeforeLoad
        (if true then LoadEvent.preLoadFinished else LoadEvent.loadFinished)
        ((initializeInvokable initState
            { scheme := "file", path := "/a.qml", isLocalFile := true,
              valid := true } true false).2) = true :=
  completion_event_wired_before_load initState
    { scheme := "file", path := "/a.qml", isLocalFile := true, valid := true }
    true false (by decide)

/-- Claim C5: variant selection in initializeInvokable is the deterministic,
case-insensitive function of path suffix and locality the spec states:
.html/.htm suffixes and every non-local locator yield WebContent, a .qml
suffix on a local file yields QmlContent; the selection depends only on the
lower-cased path and locality; and render/reload never change the selected
variant afterwards. -/
theorem variant_selection_spec :
    (∀ (st : EffectsState) (url : Url) (p t : Bool),
      (endsWithCI url.path ".html" = true ∨ endsWithCI url.path ".htm" = true ∨
          url.isLocalFile = false) →
        ((initializeInvokable st url p t).1).content = some Variant.web) ∧
    (∀ (st : EffectsState) (url : Url) (p t : Bool),
      endsWithCI url.path ".qml" = true → url.isLocalFile = true →
        ((initializeInvokable st url p t).1).content = some Variant.qml) ∧
    (∀ (st : EffectsState) (u1 u2 : Url) (p t : Bool),
      lowerStr u1.path = lowerStr u2.path → u1.isLocalFile = u2.isLocalFile →
        ((initializeInvokable st u1 p t).1).content
          = ((initializeInvokable st u2 p t).1).content) ∧
    (∀ (st st2 : EffectsState) (r b : Bool),
      renderInvokable st r = Except.ok (st2, b) → st2.content = st.content) ∧
    (∀ st st2 : EffectsState,
      reloadInvokable st = Except.ok st2 → st2.content = st.content) := by
  refine ⟨?_, ?_, ?_, ?_, ?_⟩
  · intro st url p t h
    rcases h with h | h | h <;> simp [initializeInvokable, h]
  · intro st url p t hq hl
    obtain ⟨h1, h2⟩ := qml_suffix_excludes_web url.path hq
    simp [initializeInvokable, h1, h2, hl, hq]
  · intro st u1 u2 p t hp hl
    have e1 : endsWithCI u1.path ".html" = endsWithCI u2.path ".html" := by
      unfold endsWithCI
      rw [hp]
    have e2 : endsWithCI u1.path ".htm" = endsWithCI u2.path ".htm" := by
      unfold endsWithCI
      rw [hp]
    have e3 : endsWithCI u1.path ".qml" = endsWithCI u2.path ".qml" := by
      unfold endsWithCI
      rw [hp]
    simp only [initializeInvokable, e1, e2, e3, hl]
  · intro st st2 r b h
    cases hc : st.content with
    | none => simp [renderInvokable, hc] at h
    | some v =>
      simp only [renderInvokable, hc, Except.ok.injEq] at h
      have h2 : (renderComplete st r).1 = st2 := by rw [h]
      rw [← h2]
      unfold renderComplete
      split <;> simp [hc]
  · intro st st2 h
    cases hc : st.content with
    | none => simp [reloadInvokable, hc] at h
    | some v =>
      simp only [reloadInvokable, hc, Except.ok.injEq] at h
      rw [← h]
      exact hc

/-- Witness for variant_selection_spec: an upper-cased local .QML path
selects QmlContent. -/
theorem variant_selection_spec_inst :
    ((initializeInvokable initState
        { scheme := "file", path := "/A.QML", isLocalFile := true,
          valid := true } false false).1).content = some Variant.qml :=
  variant_selection_spec.2.1 initState
    { scheme := "file", path := "/A.QML", isLocalFile := true, valid := true }
    false false (by decide) rfl

/-- Claim C6: the resolver strips the reserved "plain" pseudo-scheme and
records plain mode; when the remaining scheme token is absent or shorter
than two characters the locator is rebuilt as an absolute local-file URL
(QUrl::fromLocalFile of QFileInfo::absoluteFilePath); and resolution fails
with InvalidLocator exactly when that rebuilt locator is invalid. -/
theorem locator_resolution_spec (Q : QtModel) :
    (∀ fileName : String, (Q.parseUrl fileName).scheme = "plain" →
        resolveLocator Q fileName
          = resolveScheme Q (Q.parseUrl (Q.toStringRemoveScheme fileName))
              true) ∧
    (∀ (url : Url) (p : Bool), url.scheme.length < 2 →
        resolveScheme Q url p
          = (if (Q.fromLocalFile (Q.absoluteFilePath (Q.urlToString url))).valid
              then Except.ok
                (Q.fromLocalFile (Q.absoluteFilePath (Q.urlToString url)), p)
              else Except.error InitError.invalidLocator)) ∧
    (∀ (url : Url) (p : Bool) (u2 : Url) (b : Bool), url.scheme.length < 2 →
        resolveScheme Q url p = Except.ok (u2, b) →
        u2.isLocalFile = true ∧ b = p) ∧
    (∀ (url : Url) (p : Bool), url.scheme.length < 2 →
        (Q.fromLocalFile (Q.absoluteFilePath (Q.urlToString url))).valid
          = false →
        resolveScheme Q url p = Except.error InitError.invalidLocator) := by
  refine ⟨?_, ?_, ?_, ?_⟩
  · intro fileName h
    simp [resolveLocator, h]
  · intro url p hlen
    unfold resolveScheme
    rw [if_pos hlen]
    cases hv : (Q.fromLocalFile (Q.absoluteFilePath (Q.urlToString url))).valid
      <;> simp [hv]
  · intro url p u2 b hlen h
    unfold resolveScheme at h
    rw [if_pos hlen] at h
    cases hv : (Q.fromLocalFile (Q.absoluteFilePath (Q.urlToString url))).valid
    · simp [hv] at h
    · simp [hv] at h
      obtain ⟨hu, hb⟩ := h
      subst hu
      subst hb
      exact ⟨Q.fromLocalFile_isLocal _, rfl⟩
  · intro url p hlen hv
    unfold resolveScheme
    rw [if_pos hlen]
    simp [hv]

/-- Witness for locator_resolution_spec: sampleQt strips "plain:" and
resolves with plain mode recorded; an empty path fails with
InvalidLocator. -/
theorem locator_resolution_spec_inst :
    resolveLocator sampleQt "plain:/e.html"
      = resolveScheme sampleQt
          (sampleQt.parseUrl (sampleQt.toStringRemoveScheme "plain:/e.html"))
          true ∧
    resolveScheme sampleQt
        { scheme := "", path := "", isLocalFile := false, valid := true } false
      = Except.error InitError.invalidLocator :=
  ⟨(locator_resolution_spec sampleQt).1 "plain:/e.html" (by decide),
   (locator_resolution_spec sampleQt).2.2.2
     { scheme := "", path := "", isLocalFile := false, valid := true } false
     (by decide) (by decide)⟩

/-- Every event the owner-thread loop actually executes runs while the
instance is not disposed; events reached after disposal are dropped. -/
theorem runLoop_flag (q : List Ev) :
    ∀ (d : Bool) (x : Ev × Bool), x ∈ (runLoop q d).1 → x.2 = false := by
  induction q with
  | nil =>
    intro d x hx
    simp [runLoop] at hx
  | cons e rest ih =>
    intro d x hx
    cases d with
    | true =>
      simp only [runLoop, if_true] at hx
      exact ih true x hx
    | false =>
      cases e with
      | callEv =>
        simp [runLoop] at hx
        rcases hx with hx | hx
        · rw [hx]
        · exact ih false x hx
      | deferredDelete =>
        simp [runLoop] at hx
        rcases hx with hx | hx
        · rw [hx]
        · exact ih true x hx

/-- Draining a queue of pending calls followed by the deferred delete
executes every call first, then the delete, and ends disposed. -/
theorem runLoop_calls_first (q : List Ev) :
    (∀ e ∈ q, e = Ev.callEv) →
      runLoop (q ++ [Ev.deferredDelete]) false
        = (q.map (fun e => (e, false)) ++ [(Ev.deferredDelete, false)],
           true) := by
  induction q with
  | nil => intro _; rfl
  | cons e rest ih =>
    intro h
    have he : e = Ev.callEv := h e (List.mem_cons_self e rest)
    subst he
    have ih2 := ih (fun x hx => h x (List.mem_cons_of_mem _ hx))
    rw [List.cons_append, runLoop]
    simp [ih2]

/-- Claim C9: destroy (deleteLater) disposes nothing on the calling thread —
it only appends a deferred-delete event to the owner thread's queue; in any
loop run no event executes against a disposed instance; and every call
queued before destroy is executed before the deferred delete disposes the
instance. -/
theorem deferred_destroy_spec :
    (∀ s : LoopState, (destroyOp s).disposed = s.disposed ∧
        (destroyOp s).queue = s.queue ++ [Ev.deferredDelete]) ∧
    (∀ (q : List Ev) (d : Bool) (x : Ev × Bool),
        x ∈ (runLoop q d).1 → x.2 = false) ∧
    (∀ q : List Ev, (∀ e ∈ q, e = Ev.callEv) →
        runLoop (destroyOp { queue := q, disposed := false }).queue false
          = (q.map (fun e => (e, false)) ++ [(Ev.deferredDelete, false)],
             true)) := by
  refine ⟨fun s => ⟨rfl, rfl⟩, runLoop_flag, ?_⟩
  intro q h
  exact runLoop_calls_first q h

/-- Witness for deferred_destroy_spec: one pending call queued before
destroy completes before disposal. -/
theorem deferred_destroy_spec_inst :
    runLoop (destroyOp { queue := [Ev.callEv], disposed := false }).queue false
      = ([Ev.callEv].map (fun e => (e, false))
          ++ [(Ev.deferredDelete, false)], true) :=
  deferred_destroy_spec.2.2 [Ev.callEv] (by decide)

/-- initializeInvokable never touches the renderResult slot or the instance
mutex/waitCondition fields. -/
theorem initializeInvokable_fields (st : EffectsState) (url : Url)
    (p t : Bool) :
    ((initializeInvokable st url p t).1).renderResult = st.renderResult ∧
    ((initializeInvokable st url p t).1).mutexLive = st.mutexLive := by
  unfold initializeInvokable
  split
  · exact ⟨rfl, rfl⟩
  · split
    · exact ⟨rfl, rfl⟩
    · exact ⟨rfl, rfl⟩

/-- Running a sequential render history from a state with a live handle and
null CallRecord fields only rewrites renderResult to the renderContent value
of the last marshaled render in the history. -/
theorem renderFold (ops : List RenderOp) :
    ∀ (st : EffectsState) (v : Variant), st.content = some v →
      st.mutexLive = false →
      List.foldl renderStep st ops
        = { st with renderResult := lastMarshaledFrom st.renderResult ops } := by
  induction ops with
  | nil =>
    intro st v hc hm
    rfl
  | cons op rest ih =>
    intro st v hc hm
    obtain ⟨c, m, iR, rR⟩ := st
    simp only at hc hm
    subst hc
    subst hm
    cases op with
    | fastPath r =>
      rw [List.foldl_cons]
      have hstep : renderStep ⟨some v, false, iR, rR⟩ (.fastPath r)
          = ⟨some v, false, iR, rR⟩ := rfl
      rw [hstep]
      exact ih ⟨some v, false, iR, rR⟩ v rfl rfl
    | marshaled r =>
      rw [List.foldl_cons]
      have hstep : renderStep ⟨some v, false, iR, rR⟩ (.marshaled r)
          = ⟨some v, false, iR, r⟩ := rfl
      rw [hstep]
      exact ih ⟨some v, false, iR, r⟩ v rfl rfl

/-- Claim C10: renderComplete invoked while the instance mutex and
waitCondition are null leaves renderResult unchanged and signals nothing;
initialize never writes renderResult; consequently, after any sequential
render history from a freshly initialized bridge, an owner-thread fast-path
render returns the renderResult stored by the most recent marshaled render,
or false when no marshaled render has occurred. -/
theorem render_complete_null_guard :
    (∀ (st : EffectsState) (r : Bool), st.mutexLive = false →
        renderComplete st r = (st, false)) ∧
    (∀ (Q : QtModel) (st : EffectsState) (onUI : Bool) (fileName : String)
        (t lr : Bool),
        (initializeCall Q st onUI fileName t lr).1.renderResult
          = st.renderResult) ∧
    (∀ (v : Variant) (iR : Bool) (ops : List RenderOp) (r : Bool),
        (renderCall
            (List.foldl renderStep
              { content := some v, mutexLive := false,
                initializeResult := iR, renderResult := false } ops) true r).2.1
          = CallOutcome.returns (lastMarshaledFrom false ops)) := by
  refine ⟨?_, ?_, ?_⟩
  · intro st r hm
    simp [renderComplete, hm]
  · intro Q st onUI fileName t lr
    unfold initializeCall
    split
    · rfl
    · cases hr : resolveLocator Q fileName with
      | error e => simp only [hr]
      | ok pr =>
        obtain ⟨url, isPlain⟩ := pr
        simp only [hr]
        split
        · exact
            (initializeInvokable_fields { st with mutexLive := true } url
              isPlain t).1
        · exact
            (initializeInvokable_fields { st with mutexLive := true } url
              isPlain t).1
  · intro v iR ops r
    rw [renderFold ops _ v rfl rfl]
    simp [renderCall, renderInvokable, renderComplete]

/-- Witness for render_complete_null_guard: the null-field no-op on the
fresh bridge state, and a concrete history (one marshaled render returning
true, then a fast-path render) whose fast path returns true. -/
theorem render_complete_null_guard_inst :
    renderComplete initState true = (initState, false) ∧
    (renderCall
        (List.foldl renderStep
          { content := some Variant.web, mutexLive := false,
            initializeResult := false, renderResult := false }
          [RenderOp.marshaled true, RenderOp.fastPath false]) true false).2.1
      = CallOutcome.returns
          (lastMarshaledFrom false
            [RenderOp.marshaled true, RenderOp.fastPath false]) :=
  ⟨render_complete_null_guard.1 initState true rfl,
   render_complete_null_guard.2.2 Variant.web false
     [RenderOp.marshaled true, RenderOp.fastPath false] false⟩

end WebVfx
